import Mathlib

/-!
# Verification of `PRobr/run_experiment_probr.py`

A shallow embedding of the training / evaluation driver
`src/PRobr/run_experiment_probr.py` together with proofs about it.

Modelling conventions:
* Python `int` values become `ℕ` or `ℤ`; float losses and logits become `ℚ`
  (the claims under study are structural and do not depend on rounding).
* Python operations that can raise are embedded in `Except PyError`;
  `a // b` and `a / b` raise `ZeroDivisionError` on a zero divisor,
  `list.pop()` on an empty list raises `IndexError`.
* Side effects that matter to the claims (backward passes, optimizer steps,
  checkpoint saves, AMP initialization) are recorded as an explicit event
  trace in the training state.
* `scipy.special.softmax` is parametrized by the exponential map `expQ`,
  since only the shape `exp x / sum (map exp xs)` matters to the claims.
-/

namespace PRobr

/-- Python runtime errors that the embedded fragments can raise. -/
inductive PyError where
  | zeroDivisionError
  | apexImportError (msg : String)
  | indexError
  | badSplit
  deriving DecidableEq

/-! ## String / path helpers (`os.path.join`, `str.split('/')`) -/

/-- Splitting a character list at every occurrence of `sep`;
models Python `str.split(sep)` for a one-character separator. -/
def splitChars (sep : Char) : List Char → List (List Char)
  | [] => [[]]
  | c :: rest =>
      match splitChars sep rest with
      | [] => [[]]
      | h :: t => if c = sep then [] :: h :: t else (c :: h) :: t

/-- Python `s.split(sep)` for a one-character separator. -/
def pySplit (sep : Char) (s : String) : List String :=
  (splitChars sep s.data).map fun cs => String.mk cs

/-- Whether a string starts with `'/'`. -/
def strStartsWithSlash (s : String) : Bool :=
  match s.data with
  | [] => false
  | c :: _ => c == '/'

/-- Whether a string ends with `'/'`. -/
def strEndsWithSlash (s : String) : Bool :=
  match s.data.getLast? with
  | some c => c == '/'
  | none => false

/-- POSIX `os.path.join(a, b)` for two components. -/
def pathJoin (a b : String) : String :=
  if strStartsWithSlash b then b
  else if a = "" then b
  else if strEndsWithSlash a then a ++ b
  else a ++ "/" ++ b

/-! ## `load_and_cache_examples` : cache path and dataset construction -/

/-- The argument fields of `args` consumed by `load_and_cache_examples`. -/
structure Args where
  dataDir : String
  dataCacheDir : Option String
  modelNameOrPath : String
  maxSeqLength : ℕ
  maxNodeLength : ℕ
  maxEdgeLength : ℕ
  filterMask : Bool

/-- The cache directory: `data_cache_dir if it is given else data_dir`
(lines 360-363 of `run_experiment_probr.py`). -/
def cacheDirOf (a : Args) : String :=
  match a.dataCacheDir with
  | none => a.dataDir
  | some d => d

/-- The cached-features path of `load_and_cache_examples` (lines 365-369):
`os.path.join(data_cache_dir, 'cached_{}_{}_{}_{}'.format(eval_split,
list(filter(None, args.model_name_or_path.split('/'))).pop(),
str(args.max_seq_length), str(task)))`.
`none` models the `IndexError` of `.pop()` on an empty list. -/
def cachedFeaturesFile (a : Args) (task evalSplit : String) : Option String :=
  match ((pySplit '/' a.modelNameOrPath).filter fun x => x != "").getLast? with
  | none => none
  | some comp =>
      some (pathJoin (cacheDirOf a)
        ("cached_" ++ evalSplit ++ "_" ++ comp ++ "_" ++ toString a.maxSeqLength ++ "_" ++ task))

/-- One feature row produced by `convert_examples_to_features_RR`
(only the fields read at lines 407-413). -/
structure Feature where
  input_ids : List ℤ
  input_mask : List ℤ
  segment_ids : List ℤ
  proof_offset : List ℤ
  node_label : List ℤ
  edge_label : List ℤ
  label_id : ℤ
  deriving DecidableEq

/-- A row of a stacked torch tensor: either a sequence row or a scalar row. -/
inductive TensorRow where
  | seq (xs : List ℤ)
  | scalar (x : ℤ)
  deriving DecidableEq

/-- The torch dtypes that occur in the script. -/
inductive TorchDType where
  | int64
  | float32
  deriving DecidableEq

/-- A torch tensor: a dtype together with its stacked rows. -/
structure Tensor where
  dtype : TorchDType
  rows : List TensorRow
  deriving DecidableEq

/-- Models `torch.tensor(rows, dtype=torch.long)`. -/
def longTensor (rows : List TensorRow) : Tensor :=
  Tensor.mk TorchDType.int64 rows

/-- The `TensorDataset` built at lines 407-416: seven long tensors, one stacked
from each feature field, in source order. -/
def rrDataset (features : List Feature) : List Tensor :=
  [ longTensor (features.map fun f => TensorRow.seq f.input_ids),
    longTensor (features.map fun f => TensorRow.seq f.input_mask),
    longTensor (features.map fun f => TensorRow.seq f.segment_ids),
    longTensor (features.map fun f => TensorRow.seq f.proof_offset),
    longTensor (features.map fun f => TensorRow.seq f.node_label),
    longTensor (features.map fun f => TensorRow.seq f.edge_label),
    longTensor (features.map fun f => TensorRow.scalar f.label_id) ]

/-- Result of `load_and_cache_examples`: the features used, the dataset built
from them, and the list of cache files the call wrote (the source contains no
`torch.save` of the features, so the code never appends to `cacheWrites`). -/
structure LoadResult where
  features : List Feature
  dataset : List Tensor
  cacheWrites : List String
  deriving DecidableEq

/-- Models `load_and_cache_examples(args, task, tokenizer, evaluate, eval_split)`
(lines 356-417).  `fs` models the filesystem: the features stored at each
path, if any.  `convert` abstracts `convert_examples_to_features_RR`, applied
to the argument fields the call forwards (`eval_split` stands for the examples
selected by split, then `max_seq_length`, `max_node_length`, `max_edge_length`
and `filter_mask`). -/
def load_and_cache_examples (a : Args) (task evalSplit : String)
    (fs : String → Option (List Feature))
    (convert : String → ℕ → ℕ → ℕ → Bool → List Feature) :
    Except PyError LoadResult :=
  match cachedFeaturesFile a task evalSplit with
  | none => Except.error PyError.indexError
  | some path =>
      match fs path with
      | some features => Except.ok (LoadResult.mk features (rrDataset features) [])
      | none =>
          if evalSplit = "train" ∨ evalSplit = "dev" ∨ evalSplit = "test" then
            Except.ok
              (LoadResult.mk
                (convert evalSplit a.maxSeqLength a.maxNodeLength a.maxEdgeLength a.filterMask)
                (rrDataset
                  (convert evalSplit a.maxSeqLength a.maxNodeLength a.maxEdgeLength a.filterMask))
                [])
          else Except.error PyError.badSplit

/-- The cache files written by a `load_and_cache_examples` call. -/
def cacheWritesOf (r : Except PyError LoadResult) : List String :=
  match r with
  | Except.ok l => l.cacheWrites
  | Except.error _ => []

/-- Concrete arguments used to exhibit cache behaviour on a miss. -/
def c8Args : Args :=
  Args.mk "data" none "roberta-base" 300 26 676 false

/-- A concrete stand-in for `convert_examples_to_features_RR`. -/
def c8Convert : String → ℕ → ℕ → ℕ → Bool → List Feature :=
  fun _ _ _ _ _ => [Feature.mk [0] [1] [0] [0] [1] [0] 2]

/-! ## `evaluate` : decoding predictions to files (lines 306-351) -/

/-- First index of the maximum, running comparison:
`best` / `bestVal` track the current argmax while scanning with index `i`. -/
def argmaxAux : List ℚ → ℕ → ℕ → ℚ → ℕ
  | [], _, best, _ => best
  | x :: rest, i, best, bestVal =>
      if bestVal < x then argmaxAux rest (i + 1) i x
      else argmaxAux rest (i + 1) best bestVal

/-- Models `np.argmax` over one row: the first index attaining the maximum
(`0` on an empty row, which `np.argmax` rejects). -/
def npArgmax : List ℚ → ℕ
  | [] => 0
  | x :: rest => argmaxAux rest 1 0 x

/-- Models `scipy.special.softmax` over one row, parametrized by the exponential. -/
def softmax (expQ : ℚ → ℚ) (xs : List ℚ) : List ℚ :=
  xs.map fun x => expQ x / (xs.map expQ).sum

/-- Lines 307 and 334-335: `preds = np.argmax(preds, axis=1)`, then one line
per example holding `processor.get_labels()[pred]`. -/
def predictionsLines (labels : List String) (qaLogits : List (List ℚ)) : List String :=
  (qaLogits.map npArgmax).map fun p => labels.getD p ""

/-- Lines 308 and 341-344: `node_preds = np.argmax(node_preds, axis=2)`, then
one line per example holding the per-node argmaxes truncated to the number of
gold node labels different from `-100`. -/
def nodePredLines (goldNode : List (List ℤ)) (nodeLogits : List (List (List ℚ))) :
    List (List ℕ) :=
  (goldNode.zip (nodeLogits.map fun rows => rows.map npArgmax)).map
    fun p => p.2.take (p.1.countP fun x => x != -100)

/-- Lines 310-311 and 350-351: `normalized_logits = softmax(edge_preds, axis=2)`,
`edge_pred_logits = normalized_logits[:, :, 1]`, one line per example. -/
def edgeLogitLines (expQ : ℚ → ℚ) (edgeLogits : List (List (List ℚ))) : List (List ℚ) :=
  ((edgeLogits.map fun rows => rows.map (softmax expQ)).map fun rows =>
    rows.map fun r => r.getD 1 0)

/-- The three prediction files written by one `evaluate` pass:
each file is its path paired with its lines. -/
structure EvalFiles where
  qaFile : String × List String
  nodeFile : String × List (List ℕ)
  edgeFile : String × List (List ℚ)

/-- The decode-and-write tail of `evaluate` (lines 306-351), given the
concatenated per-example logits and gold node labels of the split. -/
def evaluateOutputs (expQ : ℚ → ℚ) (outputDir evalSplit : String)
    (labels : List String) (qaLogits : List (List ℚ))
    (nodeLogits : List (List (List ℚ))) (edgeLogits : List (List (List ℚ)))
    (goldNode : List (List ℤ)) : EvalFiles :=
  EvalFiles.mk
    (pathJoin outputDir ("predictions_" ++ evalSplit ++ ".lst"),
      predictionsLines labels qaLogits)
    (pathJoin outputDir ("prediction_nodes_" ++ evalSplit ++ ".lst"),
      nodePredLines goldNode nodeLogits)
    (pathJoin outputDir ("prediction_edge_logits_" ++ evalSplit ++ ".lst"),
      edgeLogitLines expQ edgeLogits)

/-! ## `dp_or_ddp_model` (lines 55-65) -/

/-- A model possibly wrapped in the framework parallelism wrappers. -/
inductive WrappedModel (M : Type) where
  | plain (m : M)
  | dataParallel (m : WrappedModel M)
  | distributedDataParallel (m : WrappedModel M) (deviceId outputDevice : ℤ)
  deriving DecidableEq

/-- Models `dp_or_ddp_model(args, model)`: wrap in `torch.nn.DataParallel` when
`args.n_gpu > 1`, then in `DistributedDataParallel` when
`args.local_rank != -1`. -/
def dp_or_ddp_model {M : Type} (nGpu localRank : ℤ) (m : M) : WrappedModel M :=
  if localRank ≠ -1 then
    WrappedModel.distributedDataParallel
      (if 1 < nGpu then WrappedModel.dataParallel (WrappedModel.plain m)
       else WrappedModel.plain m)
      localRank localRank
  else
    (if 1 < nGpu then WrappedModel.dataParallel (WrappedModel.plain m)
     else WrappedModel.plain m)

/-! ## `train` (lines 68-206) -/

/-- The side effects of the training loop that the claims talk about. -/
inductive TrainEvent where
  | backward (loss : ℚ)
  | scaledBackward (loss : ℚ)
  | clipModel
  | clipMaster
  | optimizerStep
  | schedulerStep
  | zeroGrad
  | ampInit (optLevel : String)
  | saveModel (dir : String)
  | saveTokenizer (dir : String)
  deriving DecidableEq

/-- Is the event a checkpoint save? -/
def TrainEvent.isSave : TrainEvent → Bool
  | TrainEvent.saveModel _ => true
  | TrainEvent.saveTokenizer _ => true
  | _ => false

/-- Is the event an optimizer step? -/
def TrainEvent.isOptStep : TrainEvent → Bool
  | TrainEvent.optimizerStep => true
  | _ => false

/-- The mutable state of the training loop. -/
structure TrainState where
  globalStep : ℕ
  trLoss : ℚ
  events : List TrainEvent
  deriving DecidableEq

/-- Lines 148-149: `if args.gradient_accumulation_steps > 1:
loss = loss / args.gradient_accumulation_steps`. -/
def backLoss (g : ℕ) (loss : ℚ) : ℚ :=
  if 1 < g then loss / (g : ℚ) else loss

/-- One iteration of the inner batch loop (lines 130-164), `step` being the
0-based `enumerate` index within the epoch. -/
def trainBatch (fp16 : Bool) (g : ℕ) (step : ℕ) (loss : ℚ) (s : TrainState) : TrainState :=
  TrainState.mk
    (if (step + 1) % g = 0 then s.globalStep + 1 else s.globalStep)
    (s.trLoss + backLoss g loss)
    (s.events
      ++ (if fp16 then [TrainEvent.scaledBackward (backLoss g loss), TrainEvent.clipMaster]
          else [TrainEvent.backward (backLoss g loss), TrainEvent.clipModel])
      ++ (if (step + 1) % g = 0 then
            [TrainEvent.optimizerStep, TrainEvent.schedulerStep, TrainEvent.zeroGrad]
          else []))

/-- The inner batch loop of one epoch (lines 130-167), with the early `break`
when `args.max_steps > 0 and global_step > args.max_steps`; the Bool records
whether the loop broke. -/
def runBatches (fp16 : Bool) (g : ℕ) (maxSteps : ℤ) (loss : ℕ → ℚ) :
    ℕ → ℕ → TrainState → TrainState × Bool
  | 0, _, s => (s, false)
  | n + 1, step, s =>
      if 0 < maxSteps ∧ maxSteps < ((trainBatch fp16 g step (loss step) s).globalStep : ℤ) then
        (trainBatch fp16 g step (loss step) s, true)
      else
        runBatches fp16 g maxSteps loss n (step + 1) (trainBatch fp16 g step (loss step) s)

/-- The four saves of lines 176-181: model and tokenizer to
`output_dir/epoch-{epoch_index+1}` and to `output_dir`. -/
def checkpointEvents (outputDir : String) (epochIndex : ℕ) : List TrainEvent :=
  [ TrainEvent.saveModel (pathJoin outputDir ("epoch-" ++ toString (epochIndex + 1))),
    TrainEvent.saveTokenizer (pathJoin outputDir ("epoch-" ++ toString (epochIndex + 1))),
    TrainEvent.saveModel outputDir,
    TrainEvent.saveTokenizer outputDir ]

/-- Lines 171-181: checkpoint when `(epoch_index + 1) % 5 == 0`. -/
def saveMaybe (outputDir : String) (epochIndex : ℕ) (s : TrainState) : TrainState :=
  if (epochIndex + 1) % 5 = 0 then
    TrainState.mk s.globalStep s.trLoss (s.events ++ checkpointEvents outputDir epochIndex)
  else s

/-- The outer epoch loop (lines 127-181), with the `break` at lines 168-170. -/
def runEpochs (fp16 : Bool) (g : ℕ) (maxSteps : ℤ) (outputDir : String)
    (loss : ℕ → ℕ → ℚ) (numBatches : ℕ) :
    ℕ → ℕ → TrainState → TrainState
  | 0, _, s => s
  | n + 1, epochIndex, s =>
      if (runBatches fp16 g maxSteps (loss epochIndex) numBatches 0 s).2 then
        (runBatches fp16 g maxSteps (loss epochIndex) numBatches 0 s).1
      else
        runEpochs fp16 g maxSteps outputDir loss numBatches n (epochIndex + 1)
          (saveMaybe outputDir epochIndex
            (runBatches fp16 g maxSteps (loss epochIndex) numBatches 0 s).1)

/-- The hyperparameters of `train` the claims depend on. -/
structure TrainArgs where
  gradientAccumulationSteps : ℕ
  maxSteps : ℤ
  numTrainEpochs : ℕ
  fp16 : Bool
  fp16OptLevel : String
  outputDir : String

/-- Python `x // y` on integers: floor division, `ZeroDivisionError` on `y = 0`. -/
def pyDivInt (x y : ℤ) : Except PyError ℤ :=
  if y = 0 then Except.error PyError.zeroDivisionError else Except.ok (Int.fdiv x y)

/-- Python `x / y` for a float `x` and integer `y`:
`ZeroDivisionError` on `y = 0`. -/
def pyDivRat (x : ℚ) (y : ℕ) : Except PyError ℚ :=
  if y = 0 then Except.error PyError.zeroDivisionError else Except.ok (x / (y : ℚ))

/-- Lines 80-84: the number of epochs the loop will run
(`args.max_steps // (len(train_dataloader) // args.gradient_accumulation_steps) + 1`
when `max_steps > 0`, else `num_train_epochs`; the `else` branch also evaluates
`len(train_dataloader) // args.gradient_accumulation_steps` for `t_total`). -/
def trainNumEpochs (a : TrainArgs) (numBatches : ℕ) : Except PyError ℕ :=
  if 0 < a.maxSteps then
    match pyDivInt (numBatches : ℤ) (a.gradientAccumulationSteps : ℤ) with
    | Except.error e => Except.error e
    | Except.ok d =>
        match pyDivInt a.maxSteps d with
        | Except.error e => Except.error e
        | Except.ok q => Except.ok (q + 1).toNat
  else
    match pyDivInt (numBatches : ℤ) (a.gradientAccumulationSteps : ℤ) with
    | Except.error e => Except.error e
    | Except.ok _ => Except.ok a.numTrainEpochs

/-- Lines 100-105: the apex import and `amp.initialize` when `args.fp16`. -/
def trainInitEvents (a : TrainArgs) (apexAvailable : Bool) : Except PyError (List TrainEvent) :=
  if a.fp16 then
    if apexAvailable then Except.ok [TrainEvent.ampInit a.fp16OptLevel]
    else
      Except.error (PyError.apexImportError
        "Please install apex from https://www.github.com/nvidia/apex to use fp16 training.")
  else Except.ok []

/-- Runs `train` up to the end of the epoch loop: the final loop state
(or the error raised before the loop). -/
def trainFinalState (a : TrainArgs) (apexAvailable : Bool) (loss : ℕ → ℕ → ℚ)
    (numBatches : ℕ) : Except PyError TrainState :=
  match trainNumEpochs a numBatches with
  | Except.error e => Except.error e
  | Except.ok numEpochs =>
      match trainInitEvents a apexAvailable with
      | Except.error e => Except.error e
      | Except.ok initEvents =>
          Except.ok (runEpochs a.fp16 a.gradientAccumulationSteps a.maxSteps a.outputDir
            loss numBatches numEpochs 0 (TrainState.mk 0 0 initEvents))

/-- Models `train(args, train_dataset, model, tokenizer)` (lines 68-206):
`return global_step, tr_loss / global_step`. -/
def train (a : TrainArgs) (apexAvailable : Bool) (loss : ℕ → ℕ → ℚ)
    (numBatches : ℕ) : Except PyError (ℕ × ℚ) :=
  match trainFinalState a apexAvailable loss numBatches with
  | Except.error e => Except.error e
  | Except.ok s =>
      match pyDivRat s.trLoss s.globalStep with
      | Except.error e => Except.error e
      | Except.ok avg => Except.ok (s.globalStep, avg)

/-- The final `global_step` of a training run, when the loop completed. -/
def globalStepOf : Except PyError TrainState → Option ℕ
  | Except.ok s => some s.globalStep
  | Except.error _ => none

/-- The event trace of a training run, when the loop completed. -/
def eventsOf : Except PyError TrainState → List TrainEvent
  | Except.ok s => s.events
  | Except.error _ => []

/-- Spec-side list of the checkpoint saves a run of `N` epochs starting at
0-based epoch index `e` should produce: model and tokenizer written to
`epoch-{index}` under the output directory and to the output directory itself,
exactly at the epochs whose 1-based index is a multiple of 5. -/
def expectedSaves (outputDir : String) : ℕ → ℕ → List TrainEvent
  | 0, _ => []
  | n + 1, epochIndex =>
      (if (epochIndex + 1) % 5 = 0 then
        [ TrainEvent.saveModel (pathJoin outputDir ("epoch-" ++ toString (epochIndex + 1))),
          TrainEvent.saveTokenizer (pathJoin outputDir ("epoch-" ++ toString (epochIndex + 1))),
          TrainEvent.saveModel outputDir,
          TrainEvent.saveTokenizer outputDir ]
      else []) ++ expectedSaves outputDir n (epochIndex + 1)

/-- State machine for the fp16 backprop discipline: in state `false` we are
between batches, in state `true` a scaled backward awaits its master-parameter
gradient clipping.  A trace is accepted when no unscaled `backward` or
model-parameter clipping occurs and every `scaledBackward` is immediately
followed by `clipMaster`. -/
def ampAux : Bool → List TrainEvent → Bool
  | false, [] => true
  | true, [] => false
  | false, e :: rest =>
      match e with
      | TrainEvent.backward _ => false
      | TrainEvent.clipModel => false
      | TrainEvent.scaledBackward _ => ampAux true rest
      | _ => ampAux false rest
  | true, e :: rest =>
      match e with
      | TrainEvent.clipMaster => ampAux false rest
      | _ => false

/-- Whether a trace respects the fp16/AMP backprop discipline. -/
def ampDiscipline (evs : List TrainEvent) : Bool :=
  ampAux false evs

/-! ## Theorems -/

/-- C7: `dp_or_ddp_model` wraps the model in `DataParallel` iff `n_gpu > 1`,
then wraps the result in `DistributedDataParallel` iff `local_rank != -1`;
when neither condition holds the model is returned unchanged (`plain m`). -/
theorem dp_or_ddp_wrapping {M : Type} (nGpu localRank : ℤ) (m : M) :
    dp_or_ddp_model nGpu localRank m =
      (if localRank = -1 then
        (if 1 < nGpu then WrappedModel.dataParallel (WrappedModel.plain m)
         else WrappedModel.plain m)
      else
        WrappedModel.distributedDataParallel
          (if 1 < nGpu then WrappedModel.dataParallel (WrappedModel.plain m)
           else WrappedModel.plain m)
          localRank localRank) := by
  unfold dp_or_ddp_model
  by_cases h : localRank = -1 <;> simp [h]

/-- C5: the dataset built by `load_and_cache_examples` is a `TensorDataset` of
exactly seven long (int64) tensors with one row per feature, stacking, in
order: input ids, input mask, segment ids, proof offset, node labels, edge
labels, answer label ids. -/
theorem dataset_seven_long_tensors (features : List Feature) :
    (rrDataset features).length = 7
    ∧ (rrDataset features).map Tensor.dtype = List.replicate 7 TorchDType.int64
    ∧ (rrDataset features).map (fun t => t.rows.length) = List.replicate 7 features.length
    ∧ (rrDataset features).map Tensor.rows =
        [ features.map (fun f => TensorRow.seq f.input_ids),
          features.map (fun f => TensorRow.seq f.input_mask),
          features.map (fun f => TensorRow.seq f.segment_ids),
          features.map (fun f => TensorRow.seq f.proof_offset),
          features.map (fun f => TensorRow.seq f.node_label),
          features.map (fun f => TensorRow.seq f.edge_label),
          features.map (fun f => TensorRow.scalar f.label_id) ] := by
  refine ⟨rfl, rfl, ?_, rfl⟩
  simp [rrDataset, longTensor, List.replicate]

/-- C2: the cached features file path is the cache directory (`data_cache_dir`
if given, else `data_dir`) joined with
`cached_{eval_split}_{last non-empty component of model_name_or_path}_{max_seq_length}_{task}`. -/
theorem cached_features_file_key (a : Args) (task evalSplit comp : String)
    (h : ((pySplit '/' a.modelNameOrPath).filter fun x => x != "").getLast? = some comp) :
    cachedFeaturesFile a task evalSplit =
      some (pathJoin (a.dataCacheDir.getD a.dataDir)
        ("cached_" ++ evalSplit ++ "_" ++ comp ++ "_" ++ toString a.maxSeqLength ++ "_" ++ task)) := by
  unfold cachedFeaturesFile
  rw [h]
  cases hdc : a.dataCacheDir <;> simp [cacheDirOf, hdc]

theorem cached_features_file_key_witness :
    cachedFeaturesFile (Args.mk "data" none "ckpt/roberta-base" 300 26 676 false) "rr" "train" =
      some (pathJoin ((Option.none).getD "data")
        ("cached_" ++ "train" ++ "_" ++ "roberta-base" ++ "_" ++ toString (300 : ℕ) ++ "_" ++ "rr")) :=
  cached_features_file_key (Args.mk "data" none "ckpt/roberta-base" 300 26 676 false)
    "rr" "train" "roberta-base" rfl

/-- Computes `(as.zip bs)[i]?` from the two component lookups. -/
theorem getElem?_zip_of {α β : Type} (as : List α) (bs : List β) (i : ℕ) (x : α) (y : β)
    (ha : as[i]? = some x) (hb : bs[i]? = some y) : (as.zip bs)[i]? = some (x, y) := by
  induction as generalizing bs i with
  | nil => simp at ha
  | cons a as ih =>
      cases bs with
      | nil => simp at hb
      | cons b bs =>
          cases i with
          | zero =>
              simp only [List.getElem?_cons_zero, Option.some.injEq] at ha hb
              simp [List.zip_cons_cons, ha, hb]
          | succ j =>
              simp only [List.getElem?_cons_succ] at ha hb
              simpa [List.zip_cons_cons] using ih bs j ha hb

/-- C1: one `evaluate` pass writes `predictions_{split}.lst`,
`prediction_nodes_{split}.lst` and `prediction_edge_logits_{split}.lst` into
the evaluation output directory; example `i`'s line in the first holds the
label-list entry at the argmax of its QA logits, in the second the per-node
argmaxes truncated to the number of gold node labels `≠ -100`, and in the
third the class-1 component of the softmax-normalized edge logits. -/
theorem evaluate_prediction_files (expQ : ℚ → ℚ) (outputDir evalSplit : String)
    (labels : List String) (qaLogits : List (List ℚ)) (nodeLogits : List (List (List ℚ)))
    (edgeLogits : List (List (List ℚ))) (goldNode : List (List ℤ))
    (i : ℕ) (ql : List ℚ) (nl : List (List ℚ)) (el : List (List ℚ)) (gn : List ℤ)
    (hq : qaLogits[i]? = some ql) (hn : nodeLogits[i]? = some nl)
    (he : edgeLogits[i]? = some el) (hg : goldNode[i]? = some gn) :
    (evaluateOutputs expQ outputDir evalSplit labels qaLogits nodeLogits edgeLogits goldNode).qaFile.1
        = pathJoin outputDir ("predictions_" ++ evalSplit ++ ".lst")
    ∧ (evaluateOutputs expQ outputDir evalSplit labels qaLogits nodeLogits edgeLogits
        goldNode).qaFile.2[i]? = some (labels.getD (npArgmax ql) "")
    ∧ (evaluateOutputs expQ outputDir evalSplit labels qaLogits nodeLogits edgeLogits
        goldNode).nodeFile.1 = pathJoin outputDir ("prediction_nodes_" ++ evalSplit ++ ".lst")
    ∧ (evaluateOutputs expQ outputDir evalSplit labels qaLogits nodeLogits edgeLogits
        goldNode).nodeFile.2[i]? =
        some ((nl.map npArgmax).take (gn.countP fun x => x != -100))
    ∧ (evaluateOutputs expQ outputDir evalSplit labels qaLogits nodeLogits edgeLogits
        goldNode).edgeFile.1 =
        pathJoin outputDir ("prediction_edge_logits_" ++ evalSplit ++ ".lst")
    ∧ (evaluateOutputs expQ outputDir evalSplit labels qaLogits nodeLogits edgeLogits
        goldNode).edgeFile.2[i]? =
        some (el.map fun r => (softmax expQ r).getD 1 0) := by
  refine ⟨rfl, ?_, rfl, ?_, rfl, ?_⟩
  · simp [evaluateOutputs, predictionsLines, List.getElem?_map, hq]
  · have hz :
        (goldNode.zip (nodeLogits.map fun rows => rows.map npArgmax))[i]? =
          some (gn, nl.map npArgmax) :=
      getElem?_zip_of _ _ _ _ _ hg (by simp [List.getElem?_map, hn])
    simp [evaluateOutputs, nodePredLines, List.getElem?_map, hz]
  · simp [evaluateOutputs, edgeLogitLines, List.getElem?_map, he]

theorem evaluate_prediction_files_witness :
    (evaluateOutputs (fun x => x) "out" "test" ["True", "False"] [[1, 2]]
      [[[1, 0], [0, 1]]] [[[0, 1]]] [[1, -100]]).qaFile.1
        = pathJoin "out" ("predictions_" ++ "test" ++ ".lst")
    ∧ (evaluateOutputs (fun x => x) "out" "test" ["True", "False"] [[1, 2]]
        [[[1, 0], [0, 1]]] [[[0, 1]]] [[1, -100]]).qaFile.2[0]? =
        some (["True", "False"].getD (npArgmax [1, 2]) "")
    ∧ (evaluateOutputs (fun x => x) "out" "test" ["True", "False"] [[1, 2]]
        [[[1, 0], [0, 1]]] [[[0, 1]]] [[1, -100]]).nodeFile.1
        = pathJoin "out" ("prediction_nodes_" ++ "test" ++ ".lst")
    ∧ (evaluateOutputs (fun x => x) "out" "test" ["True", "False"] [[1, 2]]
        [[[1, 0], [0, 1]]] [[[0, 1]]] [[1, -100]]).nodeFile.2[0]? =
        some (([[1, 0], [0, 1]].map npArgmax).take
          (([1, -100] : List ℤ).countP fun x => x != -100))
    ∧ (evaluateOutputs (fun x => x) "out" "test" ["True", "False"] [[1, 2]]
        [[[1, 0], [0, 1]]] [[[0, 1]]] [[1, -100]]).edgeFile.1
        = pathJoin "out" ("prediction_edge_logits_" ++ "test" ++ ".lst")
    ∧ (evaluateOutputs (fun x => x) "out" "test" ["True", "False"] [[1, 2]]
        [[[1, 0], [0, 1]]] [[[0, 1]]] [[1, -100]]).edgeFile.2[0]? =
        some ([[0, 1]].map fun r => (softmax (fun x => x) r).getD 1 0) :=
  evaluate_prediction_files (fun x => x) "out" "test" ["True", "False"] [[1, 2]]
    [[[1, 0], [0, 1]]] [[[0, 1]]] [[1, -100]] 0 [1, 2] [[1, 0], [0, 1]] [[0, 1]] [1, -100]
    rfl rfl rfl rfl

/-- The cached-features path only reads `data_dir`, `data_cache_dir`,
`model_name_or_path` and `max_seq_length` from `args`. -/
theorem cachedFeaturesFile_congr (a1 a2 : Args) (task evalSplit : String)
    (hdd : a1.dataDir = a2.dataDir) (hdc : a1.dataCacheDir = a2.dataCacheDir)
    (hmp : a1.modelNameOrPath = a2.modelNameOrPath) (hms : a1.maxSeqLength = a2.maxSeqLength) :
    cachedFeaturesFile a1 task evalSplit = cachedFeaturesFile a2 task evalSplit := by
  unfold cachedFeaturesFile cacheDirOf
  rw [hdd, hdc, hmp, hms]

/-- C8 (amended): invocations of `load_and_cache_examples` that differ only in
`max_node_length`, `max_edge_length` and `filter_mask` compute the same cache
file path, and when the cache file exists both load exactly its content —
whatever feature computation (`conv1`, `conv2`) a miss would have run. -/
theorem cache_key_independence (a1 a2 : Args) (task evalSplit path : String)
    (features : List Feature) (fs : String → Option (List Feature))
    (conv1 conv2 : String → ℕ → ℕ → ℕ → Bool → List Feature)
    (hdd : a1.dataDir = a2.dataDir) (hdc : a1.dataCacheDir = a2.dataCacheDir)
    (hmp : a1.modelNameOrPath = a2.modelNameOrPath) (hms : a1.maxSeqLength = a2.maxSeqLength)
    (hpath : cachedFeaturesFile a1 task evalSplit = some path)
    (hhit : fs path = some features) :
    cachedFeaturesFile a2 task evalSplit = some path
    ∧ load_and_cache_examples a1 task evalSplit fs conv1 =
        Except.ok (LoadResult.mk features (rrDataset features) [])
    ∧ load_and_cache_examples a2 task evalSplit fs conv2 =
        Except.ok (LoadResult.mk features (rrDataset features) []) := by
  have hpath2 : cachedFeaturesFile a2 task evalSplit = some path := by
    rw [← cachedFeaturesFile_congr a1 a2 task evalSplit hdd hdc hmp hms]
    exact hpath
  refine ⟨hpath2, ?_, ?_⟩
  · unfold load_and_cache_examples
    rw [hpath]
    simp [hhit]
  · unfold load_and_cache_examples
    rw [hpath2]
    simp [hhit]

theorem cache_key_independence_witness :
    cachedFeaturesFile (Args.mk "data" none "roberta-base" 300 99 700 true) "rr" "train" =
      some "data/cached_train_roberta-base_300_rr"
    ∧ load_and_cache_examples c8Args "rr" "train"
        (fun p => if p = "data/cached_train_roberta-base_300_rr" then
          some [Feature.mk [3] [1] [0] [0] [1] [0] 1] else none)
        c8Convert =
        Except.ok (LoadResult.mk [Feature.mk [3] [1] [0] [0] [1] [0] 1]
          (rrDataset [Feature.mk [3] [1] [0] [0] [1] [0] 1]) [])
    ∧ load_and_cache_examples (Args.mk "data" none "roberta-base" 300 99 700 true) "rr" "train"
        (fun p => if p = "data/cached_train_roberta-base_300_rr" then
          some [Feature.mk [3] [1] [0] [0] [1] [0] 1] else none)
        (fun _ _ _ _ _ => []) =
        Except.ok (LoadResult.mk [Feature.mk [3] [1] [0] [0] [1] [0] 1]
          (rrDataset [Feature.mk [3] [1] [0] [0] [1] [0] 1]) []) :=
  cache_key_independence c8Args (Args.mk "data" none "roberta-base" 300 99 700 true)
    "rr" "train" "data/cached_train_roberta-base_300_rr"
    [Feature.mk [3] [1] [0] [0] [1] [0] 1]
    (fun p => if p = "data/cached_train_roberta-base_300_rr" then
      some [Feature.mk [3] [1] [0] [0] [1] [0] 1] else none)
    c8Convert (fun _ _ _ _ _ => [])
    rfl rfl rfl rfl (by decide) (by decide)

/-- C8 counterexample: on a cache miss, `load_and_cache_examples` computes
features but never writes them to the cache file — the computed cache path is
not among the paths written by the call, refuting "computed and stored". -/
theorem cache_store_counterexample :
    cachedFeaturesFile c8Args "rr" "train" = some "data/cached_train_roberta-base_300_rr"
    ∧ (fun _ => (none : Option (List Feature))) "data/cached_train_roberta-base_300_rr" = none
    ∧ cacheWritesOf (load_and_cache_examples c8Args "rr" "train" (fun _ => none) c8Convert) = []
    ∧ ¬ ("data/cached_train_roberta-base_300_rr" ∈
          cacheWritesOf (load_and_cache_examples c8Args "rr" "train" (fun _ => none) c8Convert)) := by
  refine ⟨by decide, rfl, by decide, ?_⟩
  intro hmem
  rw [show cacheWritesOf (load_and_cache_examples c8Args "rr" "train" (fun _ => none) c8Convert)
      = [] from by decide] at hmem
  exact (List.not_mem_nil _) hmem

theorem trainBatch_globalStep (fp16 : Bool) (g step : ℕ) (loss : ℚ) (s : TrainState) :
    (trainBatch fp16 g step loss s).globalStep =
      if (step + 1) % g = 0 then s.globalStep + 1 else s.globalStep := rfl

theorem trainBatch_trLoss (fp16 : Bool) (g step : ℕ) (loss : ℚ) (s : TrainState) :
    (trainBatch fp16 g step loss s).trLoss = s.trLoss + backLoss g loss := rfl

theorem trainBatch_events (fp16 : Bool) (g step : ℕ) (loss : ℚ) (s : TrainState) :
    (trainBatch fp16 g step loss s).events =
      s.events
        ++ (if fp16 then [TrainEvent.scaledBackward (backLoss g loss), TrainEvent.clipMaster]
            else [TrainEvent.backward (backLoss g loss), TrainEvent.clipModel])
        ++ (if (step + 1) % g = 0 then
              [TrainEvent.optimizerStep, TrainEvent.schedulerStep, TrainEvent.zeroGrad]
            else []) := rfl

/-- C3: with `gradient_accumulation_steps = g > 1`, every batch backpropagates
`loss / g` (and adds it to `tr_loss`); the optimizer step, scheduler step,
gradient reset and `global_step` increment happen exactly on the batches whose
1-based index in the epoch is a multiple of `g`, and on no other batch. -/
theorem gradient_accumulation (fp16 : Bool) (g step : ℕ) (loss : ℚ) (s : TrainState)
    (hg : 1 < g) :
    (trainBatch fp16 g step loss s).events =
      s.events
        ++ (if fp16 then [TrainEvent.scaledBackward (loss / (g : ℚ)), TrainEvent.clipMaster]
            else [TrainEvent.backward (loss / (g : ℚ)), TrainEvent.clipModel])
        ++ (if g ∣ (step + 1) then
              [TrainEvent.optimizerStep, TrainEvent.schedulerStep, TrainEvent.zeroGrad]
            else [])
    ∧ (trainBatch fp16 g step loss s).globalStep =
        (if g ∣ (step + 1) then s.globalStep + 1 else s.globalStep)
    ∧ (trainBatch fp16 g step loss s).trLoss = s.trLoss + loss / (g : ℚ) := by
  have hb : backLoss g loss = loss / (g : ℚ) := if_pos hg
  have hdvd : ((step + 1) % g = 0) = (g ∣ (step + 1)) := by
    simp [Nat.dvd_iff_mod_eq_zero]
  refine ⟨?_, ?_, ?_⟩
  · simp only [trainBatch_events, hb, hdvd]
  · simp only [trainBatch_globalStep, hdvd]
  · rw [trainBatch_trLoss, hb]

theorem gradient_accumulation_witness :
    (trainBatch false 2 1 3 (TrainState.mk 0 0 [])).events =
      (TrainState.mk 0 0 []).events
        ++ (if false then [TrainEvent.scaledBackward ((3 : ℚ) / (2 : ℚ)), TrainEvent.clipMaster]
            else [TrainEvent.backward ((3 : ℚ) / (2 : ℚ)), TrainEvent.clipModel])
        ++ (if 2 ∣ (1 + 1) then
              [TrainEvent.optimizerStep, TrainEvent.schedulerStep, TrainEvent.zeroGrad]
            else [])
    ∧ (trainBatch false 2 1 3 (TrainState.mk 0 0 [])).globalStep =
        (if 2 ∣ (1 + 1) then (TrainState.mk 0 0 []).globalStep + 1
         else (TrainState.mk 0 0 []).globalStep)
    ∧ (trainBatch false 2 1 3 (TrainState.mk 0 0 [])).trLoss =
        (TrainState.mk 0 0 []).trLoss + (3 : ℚ) / (2 : ℚ) :=
  gradient_accumulation false 2 1 3 (TrainState.mk 0 0 []) (by decide)

/-- A batch iteration performs no checkpoint save. -/
theorem trainBatch_filter_save (fp16 : Bool) (g step : ℕ) (loss : ℚ) (s : TrainState) :
    (trainBatch fp16 g step loss s).events.filter TrainEvent.isSave
      = s.events.filter TrainEvent.isSave := by
  rw [trainBatch_events, List.filter_append, List.filter_append]
  have h1 : List.filter TrainEvent.isSave
      (if fp16 then [TrainEvent.scaledBackward (backLoss g loss), TrainEvent.clipMaster]
       else [TrainEvent.backward (backLoss g loss), TrainEvent.clipModel]) = [] := by
    cases fp16 <;> simp [TrainEvent.isSave]
  have h2 : List.filter TrainEvent.isSave
      (if (step + 1) % g = 0 then
        [TrainEvent.optimizerStep, TrainEvent.schedulerStep, TrainEvent.zeroGrad]
       else []) = [] := by
    split <;> simp [TrainEvent.isSave]
  rw [h1, h2]
  simp

/-- With `max_steps ≤ 0` the inner loop never breaks and saves nothing. -/
theorem runBatches_noBreak (fp16 : Bool) (g : ℕ) (maxSteps : ℤ) (loss : ℕ → ℚ)
    (hms : maxSteps ≤ 0) :
    ∀ n step s, (runBatches fp16 g maxSteps loss n step s).2 = false
      ∧ (runBatches fp16 g maxSteps loss n step s).1.events.filter TrainEvent.isSave
          = s.events.filter TrainEvent.isSave := by
  intro n
  induction n with
  | zero => intro step s; simp [runBatches]
  | succ n ih =>
      intro step s
      have hcond : ¬ (0 < maxSteps ∧
          maxSteps < ((trainBatch fp16 g step (loss step) s).globalStep : ℤ)) := by
        intro h
        exact absurd h.1 (not_lt.mpr hms)
      simp only [runBatches, if_neg hcond]
      refine ⟨(ih (step + 1) (trainBatch fp16 g step (loss step) s)).1, ?_⟩
      rw [(ih (step + 1) (trainBatch fp16 g step (loss step) s)).2, trainBatch_filter_save]

/-- With `max_steps ≤ 0`, the saves of a run of the epoch loop are exactly
the expected checkpoint saves. -/
theorem runEpochs_filter_save (fp16 : Bool) (g : ℕ) (maxSteps : ℤ) (outputDir : String)
    (loss : ℕ → ℕ → ℚ) (numBatches : ℕ) (hms : maxSteps ≤ 0) :
    ∀ N epochIndex s,
      (runEpochs fp16 g maxSteps outputDir loss numBatches N epochIndex s).events.filter
          TrainEvent.isSave
        = s.events.filter TrainEvent.isSave ++ expectedSaves outputDir N epochIndex := by
  intro N
  induction N with
  | zero => intro e s; simp [runEpochs, expectedSaves]
  | succ n ih =>
      intro e s
      have hb := runBatches_noBreak fp16 g maxSteps (loss e) hms numBatches 0 s
      simp only [runEpochs, hb.1, Bool.false_eq_true, if_false]
      rw [ih (e + 1) (saveMaybe outputDir e
        (runBatches fp16 g maxSteps (loss e) numBatches 0 s).1)]
      have hsm : (saveMaybe outputDir e
            (runBatches fp16 g maxSteps (loss e) numBatches 0 s).1).events.filter
            TrainEvent.isSave
          = (runBatches fp16 g maxSteps (loss e) numBatches 0 s).1.events.filter
              TrainEvent.isSave
            ++ (if (e + 1) % 5 = 0 then checkpointEvents outputDir e else []) := by
        unfold saveMaybe
        split
        · simp [List.filter_append, checkpointEvents, TrainEvent.isSave]
        · simp
      rw [hsm, hb.2, List.append_assoc]
      congr 1

/-- C4: with no `max_steps` cap, a checkpoint consisting of model weights and
tokenizer state is saved at the end of exactly the epochs whose 1-based index
is a multiple of 5, each save writing to `output_dir/epoch-{index}` and to
`output_dir` itself. -/
theorem checkpoint_cadence (fp16 : Bool) (g : ℕ) (maxSteps : ℤ) (outputDir : String)
    (loss : ℕ → ℕ → ℚ) (numBatches N : ℕ) (s : TrainState)
    (hms : maxSteps ≤ 0) (hs : s.events.filter TrainEvent.isSave = []) :
    (runEpochs fp16 g maxSteps outputDir loss numBatches N 0 s).events.filter TrainEvent.isSave
      = expectedSaves outputDir N 0 := by
  rw [runEpochs_filter_save fp16 g maxSteps outputDir loss numBatches hms N 0 s, hs]
  simp

theorem checkpoint_cadence_witness :
    (runEpochs false 1 (-1) "out" (fun _ _ => 0) 1 5 0 (TrainState.mk 0 0 [])).events.filter
        TrainEvent.isSave
      = expectedSaves "out" 5 0 :=
  checkpoint_cadence false 1 (-1) "out" (fun _ _ => 0) 1 5 (TrainState.mk 0 0 [])
    (by decide) rfl

/-- With `max_steps ≤ 0` and fewer remaining batches than `g`, the inner loop
performs no optimizer update. -/
theorem runBatches_gs_small (fp16 : Bool) (g : ℕ) (maxSteps : ℤ) (loss : ℕ → ℚ)
    (hms : maxSteps ≤ 0) :
    ∀ n step s, step + n < g →
      (runBatches fp16 g maxSteps loss n step s).1.globalStep = s.globalStep := by
  intro n
  induction n with
  | zero => intro step s h; simp [runBatches]
  | succ n ih =>
      intro step s h
      have hcond : ¬ (0 < maxSteps ∧
          maxSteps < ((trainBatch fp16 g step (loss step) s).globalStep : ℤ)) := by
        intro hh
        exact absurd hh.1 (not_lt.mpr hms)
      simp only [runBatches, if_neg hcond]
      rw [ih (step + 1) (trainBatch fp16 g step (loss step) s) (by omega)]
      rw [trainBatch_globalStep]
      have hmod : (step + 1) % g = step + 1 := Nat.mod_eq_of_lt (by omega)
      simp [hmod]

/-- Saving checkpoints via `saveMaybe` does not touch `global_step`. -/
theorem saveMaybe_globalStep (outputDir : String) (epochIndex : ℕ) (s : TrainState) :
    (saveMaybe outputDir epochIndex s).globalStep = s.globalStep := by
  unfold saveMaybe
  split <;> rfl

/-- With `max_steps ≤ 0` and every epoch shorter than `g`, the whole epoch
loop never increments `global_step`. -/
theorem runEpochs_gs_small (fp16 : Bool) (g : ℕ) (maxSteps : ℤ) (outputDir : String)
    (loss : ℕ → ℕ → ℚ) (numBatches : ℕ) (hms : maxSteps ≤ 0) (hnb : numBatches < g) :
    ∀ N epochIndex s,
      (runEpochs fp16 g maxSteps outputDir loss numBatches N epochIndex s).globalStep
        = s.globalStep := by
  intro N
  induction N with
  | zero => intro e s; simp [runEpochs]
  | succ n ih =>
      intro e s
      have hb := runBatches_noBreak fp16 g maxSteps (loss e) hms numBatches 0 s
      simp only [runEpochs, hb.1, Bool.false_eq_true, if_false]
      rw [ih (e + 1) (saveMaybe outputDir e
        (runBatches fp16 g maxSteps (loss e) numBatches 0 s).1)]
      rw [saveMaybe_globalStep]
      exact runBatches_gs_small fp16 g maxSteps (loss e) hms numBatches 0 s (by omega)

/-- C9: `train` returns `(global_step, tr_loss / global_step)`; in a run that
never performs an optimizer update (each epoch shorter than
`gradient_accumulation_steps`, or zero epochs), `global_step` is still 0 at
the end of the loop and the returned expression raises `ZeroDivisionError`. -/
theorem train_div_by_zero_when_no_updates (a : TrainArgs) (apexAvailable : Bool)
    (loss : ℕ → ℕ → ℚ) (numBatches : ℕ)
    (hg : 1 ≤ a.gradientAccumulationSteps)
    (hsetup : a.fp16 = true → apexAvailable = true)
    (hms : a.maxSteps ≤ 0)
    (hnoupd : numBatches < a.gradientAccumulationSteps ∨ a.numTrainEpochs = 0) :
    globalStepOf (trainFinalState a apexAvailable loss numBatches) = some 0
    ∧ train a apexAvailable loss numBatches = Except.error PyError.zeroDivisionError := by
  have hgz : (a.gradientAccumulationSteps : ℤ) ≠ 0 := by
    have := Nat.one_le_iff_ne_zero.mp hg
    exact_mod_cast this
  have hne : trainNumEpochs a numBatches = Except.ok a.numTrainEpochs := by
    unfold trainNumEpochs
    rw [if_neg (not_lt.mpr hms)]
    unfold pyDivInt
    rw [if_neg hgz]
  have hie : trainInitEvents a apexAvailable =
      Except.ok (if a.fp16 then [TrainEvent.ampInit a.fp16OptLevel] else []) := by
    unfold trainInitEvents
    cases hfp : a.fp16 with
    | false => simp
    | true => simp [hsetup hfp]
  have hfs : trainFinalState a apexAvailable loss numBatches =
      Except.ok (runEpochs a.fp16 a.gradientAccumulationSteps a.maxSteps a.outputDir
        loss numBatches a.numTrainEpochs 0
        (TrainState.mk 0 0 (if a.fp16 then [TrainEvent.ampInit a.fp16OptLevel] else []))) := by
    unfold trainFinalState
    rw [hne, hie]
  have hgs : (runEpochs a.fp16 a.gradientAccumulationSteps a.maxSteps a.outputDir
      loss numBatches a.numTrainEpochs 0
      (TrainState.mk 0 0 (if a.fp16 then [TrainEvent.ampInit a.fp16OptLevel] else []))).globalStep
      = 0 := by
    cases hnoupd with
    | inl h =>
        exact runEpochs_gs_small a.fp16 a.gradientAccumulationSteps a.maxSteps a.outputDir
          loss numBatches hms h a.numTrainEpochs 0 _
    | inr h => rw [h]; simp [runEpochs]
  have hok : ∀ s : TrainState, globalStepOf (Except.ok s) = some s.globalStep := fun _ => rfl
  have htr : train a apexAvailable loss numBatches =
      (match pyDivRat (runEpochs a.fp16 a.gradientAccumulationSteps a.maxSteps a.outputDir
          loss numBatches a.numTrainEpochs 0
          (TrainState.mk 0 0
            (if a.fp16 then [TrainEvent.ampInit a.fp16OptLevel] else []))).trLoss
          (runEpochs a.fp16 a.gradientAccumulationSteps a.maxSteps a.outputDir
          loss numBatches a.numTrainEpochs 0
          (TrainState.mk 0 0
            (if a.fp16 then [TrainEvent.ampInit a.fp16OptLevel] else []))).globalStep with
        | Except.error e => Except.error e
        | Except.ok avg =>
            Except.ok ((runEpochs a.fp16 a.gradientAccumulationSteps a.maxSteps a.outputDir
              loss numBatches a.numTrainEpochs 0
              (TrainState.mk 0 0
                (if a.fp16 then [TrainEvent.ampInit a.fp16OptLevel] else []))).globalStep, avg)) := by
    unfold train
    rw [hfs]
  constructor
  · rw [hfs, hok, hgs]
  · rw [htr, hgs]
    rfl

theorem train_div_by_zero_when_no_updates_witness :
    globalStepOf (trainFinalState (TrainArgs.mk 2 (-1) 3 false "O1" "out") false
      (fun _ _ => 1) 1) = some 0
    ∧ train (TrainArgs.mk 2 (-1) 3 false "O1" "out") false (fun _ _ => 1) 1 =
        Except.error PyError.zeroDivisionError :=
  train_div_by_zero_when_no_updates (TrainArgs.mk 2 (-1) 3 false "O1" "out") false
    (fun _ _ => 1) 1 (by decide) (by decide) (by decide) (Or.inl (by decide))

/-- The batch step raises `global_step` by at most one. -/
theorem trainBatch_gs_le (fp16 : Bool) (g step : ℕ) (loss : ℚ) (s : TrainState) :
    s.globalStep ≤ (trainBatch fp16 g step loss s).globalStep
    ∧ (trainBatch fp16 g step loss s).globalStep ≤ s.globalStep + 1 := by
  rw [trainBatch_globalStep]
  split <;> omega

/-- With `max_steps > 0` the inner loop keeps `global_step ≤ max_steps + 1`,
and when it does not break it keeps `global_step ≤ max_steps`. -/
theorem runBatches_bound (fp16 : Bool) (g : ℕ) (maxSteps : ℤ) (loss : ℕ → ℚ)
    (hms : 0 < maxSteps) :
    ∀ n step s, (s.globalStep : ℤ) ≤ maxSteps →
      (((runBatches fp16 g maxSteps loss n step s).1.globalStep : ℤ) ≤ maxSteps + 1
      ∧ ((runBatches fp16 g maxSteps loss n step s).2 = false →
          ((runBatches fp16 g maxSteps loss n step s).1.globalStep : ℤ) ≤ maxSteps)) := by
  intro n
  induction n with
  | zero =>
      intro step s h
      simp only [runBatches]
      exact ⟨by omega, fun _ => h⟩
  | succ n ih =>
      intro step s h
      have htb := trainBatch_gs_le fp16 g step (loss step) s
      by_cases hbr : 0 < maxSteps ∧
          maxSteps < ((trainBatch fp16 g step (loss step) s).globalStep : ℤ)
      · simp only [runBatches, if_pos hbr]
        constructor
        · have h2 := htb.2
          omega
        · intro hfalse
          simp at hfalse
      · simp only [runBatches, if_neg hbr]
        push_neg at hbr
        have hle := hbr hms
        exact ih (step + 1) (trainBatch fp16 g step (loss step) s) (by omega)

/-- With `max_steps > 0` the whole epoch loop keeps
`global_step ≤ max_steps + 1`. -/
theorem runEpochs_bound (fp16 : Bool) (g : ℕ) (maxSteps : ℤ) (outputDir : String)
    (loss : ℕ → ℕ → ℚ) (numBatches : ℕ) (hms : 0 < maxSteps) :
    ∀ N epochIndex s, (s.globalStep : ℤ) ≤ maxSteps →
      (((runEpochs fp16 g maxSteps outputDir loss numBatches N epochIndex s).globalStep : ℤ)
        ≤ maxSteps + 1) := by
  intro N
  induction N with
  | zero =>
      intro e s h
      simp only [runEpochs]
      omega
  | succ n ih =>
      intro e s h
      have hb := runBatches_bound fp16 g maxSteps (loss e) hms numBatches 0 s h
      cases hbool : (runBatches fp16 g maxSteps (loss e) numBatches 0 s).2 with
      | true =>
          simp only [runEpochs, hbool, if_true]
          exact hb.1
      | false =>
          simp only [runEpochs, hbool, Bool.false_eq_true, if_false]
          apply ih
          rw [saveMaybe_globalStep]
          exact hb.2 hbool

/-- The batch step keeps the optimizer-step count equal to `global_step`. -/
theorem trainBatch_count (fp16 : Bool) (g step : ℕ) (loss : ℚ) (s : TrainState)
    (h : s.events.countP TrainEvent.isOptStep = s.globalStep) :
    (trainBatch fp16 g step loss s).events.countP TrainEvent.isOptStep
      = (trainBatch fp16 g step loss s).globalStep := by
  rw [trainBatch_events, trainBatch_globalStep, List.countP_append, List.countP_append]
  have h1 : List.countP TrainEvent.isOptStep
      (if fp16 then [TrainEvent.scaledBackward (backLoss g loss), TrainEvent.clipMaster]
       else [TrainEvent.backward (backLoss g loss), TrainEvent.clipModel]) = 0 := by
    cases fp16 <;> simp [TrainEvent.isOptStep]
  have h2 : List.countP TrainEvent.isOptStep
      (if (step + 1) % g = 0 then
        [TrainEvent.optimizerStep, TrainEvent.schedulerStep, TrainEvent.zeroGrad]
       else []) = if (step + 1) % g = 0 then 1 else 0 := by
    split <;> simp [TrainEvent.isOptStep]
  rw [h1, h2, h]
  split <;> omega

/-- The inner loop keeps the optimizer-step count equal to `global_step`. -/
theorem runBatches_count (fp16 : Bool) (g : ℕ) (maxSteps : ℤ) (loss : ℕ → ℚ) :
    ∀ n step s, s.events.countP TrainEvent.isOptStep = s.globalStep →
      (runBatches fp16 g maxSteps loss n step s).1.events.countP TrainEvent.isOptStep
        = (runBatches fp16 g maxSteps loss n step s).1.globalStep := by
  intro n
  induction n with
  | zero => intro step s h; simpa [runBatches] using h
  | succ n ih =>
      intro step s h
      by_cases hbr : 0 < maxSteps ∧
          maxSteps < ((trainBatch fp16 g step (loss step) s).globalStep : ℤ)
      · simp only [runBatches, if_pos hbr]
        exact trainBatch_count fp16 g step (loss step) s h
      · simp only [runBatches, if_neg hbr]
        exact ih (step + 1) (trainBatch fp16 g step (loss step) s)
          (trainBatch_count fp16 g step (loss step) s h)

/-- Saving checkpoints via `saveMaybe` adds no optimizer-step event. -/
theorem saveMaybe_count (outputDir : String) (epochIndex : ℕ) (s : TrainState) :
    (saveMaybe outputDir epochIndex s).events.countP TrainEvent.isOptStep
      = s.events.countP TrainEvent.isOptStep := by
  unfold saveMaybe
  split
  · simp [List.countP_append, checkpointEvents, TrainEvent.isOptStep]
  · rfl

/-- The epoch loop keeps the optimizer-step count equal to `global_step`. -/
theorem runEpochs_count (fp16 : Bool) (g : ℕ) (maxSteps : ℤ) (outputDir : String)
    (loss : ℕ → ℕ → ℚ) (numBatches : ℕ) :
    ∀ N epochIndex s, s.events.countP TrainEvent.isOptStep = s.globalStep →
      (runEpochs fp16 g maxSteps outputDir loss numBatches N epochIndex s).events.countP
          TrainEvent.isOptStep
        = (runEpochs fp16 g maxSteps outputDir loss numBatches N epochIndex s).globalStep := by
  intro N
  induction N with
  | zero => intro e s h; simpa [runEpochs] using h
  | succ n ih =>
      intro e s h
      cases hbool : (runBatches fp16 g maxSteps (loss e) numBatches 0 s).2 with
      | true =>
          simp only [runEpochs, hbool, if_true]
          exact runBatches_count fp16 g maxSteps (loss e) numBatches 0 s h
      | false =>
          simp only [runEpochs, hbool, Bool.false_eq_true, if_false]
          apply ih
          rw [saveMaybe_count, saveMaybe_globalStep]
          exact runBatches_count fp16 g maxSteps (loss e) numBatches 0 s h

/-- With `max_steps > 0` and enough batches left to yield the missing updates,
the inner loop breaks with `global_step = max_steps + 1` exactly. -/
theorem runBatches_reach (fp16 : Bool) (g : ℕ) (maxSteps : ℤ) (loss : ℕ → ℚ)
    (_hg : 0 < g) (hms : 0 < maxSteps) :
    ∀ n step s, (s.globalStep : ℤ) ≤ maxSteps →
      (maxSteps + 1).toNat - s.globalStep ≤ (step + n) / g - step / g →
      ((runBatches fp16 g maxSteps loss n step s).2 = true
      ∧ ((runBatches fp16 g maxSteps loss n step s).1.globalStep : ℤ) = maxSteps + 1) := by
  intro n
  induction n with
  | zero =>
      intro step s h hcnt
      exfalso
      rw [Nat.add_zero, Nat.sub_self] at hcnt
      omega
  | succ n ih =>
      intro step s h hcnt
      have harr : step + (n + 1) = step + 1 + n := by omega
      rw [harr] at hcnt
      have hmono : step / g ≤ (step + 1 + n) / g := Nat.div_le_div_right (by omega)
      by_cases hu : (step + 1) % g = 0
      · have hTgs : (trainBatch fp16 g step (loss step) s).globalStep = s.globalStep + 1 := by
          rw [trainBatch_globalStep, if_pos hu]
        by_cases hbr : maxSteps < ((trainBatch fp16 g step (loss step) s).globalStep : ℤ)
        · simp only [runBatches, if_pos (And.intro hms hbr)]
          refine ⟨trivial, ?_⟩
          rw [hTgs] at hbr ⊢
          push_cast at hbr ⊢
          omega
        · have hnobr : ¬ (0 < maxSteps ∧
              maxSteps < ((trainBatch fp16 g step (loss step) s).globalStep : ℤ)) :=
            fun hh => hbr hh.2
          simp only [runBatches, if_neg hnobr]
          have hdvd : g ∣ (step + 1) := Nat.dvd_iff_mod_eq_zero.mpr hu
          have hsucc : (step + 1) / g = step / g + 1 := by
            rw [Nat.succ_div, if_pos hdvd]
          apply ih (step + 1) (trainBatch fp16 g step (loss step) s)
          · rw [hTgs]
            push_cast
            omega
          · rw [hTgs, hsucc]
            obtain ⟨A, hA⟩ : ∃ A, (step + 1 + n) / g = A := ⟨_, rfl⟩
            obtain ⟨B, hB⟩ : ∃ B, step / g = B := ⟨_, rfl⟩
            rw [hA, hB] at hcnt ⊢
            rw [hA, hB] at hmono
            omega
      · have hTgs : (trainBatch fp16 g step (loss step) s).globalStep = s.globalStep := by
          rw [trainBatch_globalStep, if_neg hu]
        have hnobr : ¬ (0 < maxSteps ∧
            maxSteps < ((trainBatch fp16 g step (loss step) s).globalStep : ℤ)) := by
          rw [hTgs]
          intro hh
          exact absurd hh.2 (not_lt.mpr h)
        simp only [runBatches, if_neg hnobr]
        have hndvd : ¬ g ∣ (step + 1) :=
          fun hd => hu (Nat.dvd_iff_mod_eq_zero.mp hd)
        have hsucc : (step + 1) / g = step / g := by
          rw [Nat.succ_div, if_neg hndvd, Nat.add_zero]
        apply ih (step + 1) (trainBatch fp16 g step (loss step) s)
        · rw [hTgs]
          exact h
        · rw [hTgs, hsucc]
          obtain ⟨A, hA⟩ : ∃ A, (step + 1 + n) / g = A := ⟨_, rfl⟩
          obtain ⟨B, hB⟩ : ∃ B, step / g = B := ⟨_, rfl⟩
          rw [hA, hB] at hcnt ⊢
          omega

/-- C10: with `max_steps > 0`, the final `global_step` never exceeds
`max_steps + 1`, the number of optimizer steps performed equals the final
`global_step` (so at most `max_steps + 1` optimizer steps happen), and with
enough update-yielding batches in an epoch exactly `max_steps + 1` updates
are performed before both loops exit. -/
theorem max_steps_bound (fp16 : Bool) (g : ℕ) (maxSteps : ℤ) (outputDir : String)
    (loss : ℕ → ℕ → ℚ) (numBatches N : ℕ) (evs : List TrainEvent)
    (hms : 0 < maxSteps) (hg : 0 < g) (hevs : evs.countP TrainEvent.isOptStep = 0) :
    (((runEpochs fp16 g maxSteps outputDir loss numBatches N 0
        (TrainState.mk 0 0 evs)).globalStep : ℤ) ≤ maxSteps + 1)
    ∧ (runEpochs fp16 g maxSteps outputDir loss numBatches N 0
        (TrainState.mk 0 0 evs)).events.countP TrainEvent.isOptStep
        = (runEpochs fp16 g maxSteps outputDir loss numBatches N 0
            (TrainState.mk 0 0 evs)).globalStep
    ∧ (g * (maxSteps + 1).toNat ≤ numBatches → 1 ≤ N →
        (((runEpochs fp16 g maxSteps outputDir loss numBatches N 0
            (TrainState.mk 0 0 evs)).globalStep : ℤ) = maxSteps + 1)) := by
  refine ⟨?_, ?_, ?_⟩
  · exact runEpochs_bound fp16 g maxSteps outputDir loss numBatches hms N 0
      (TrainState.mk 0 0 evs) (by simp; omega)
  · exact runEpochs_count fp16 g maxSteps outputDir loss numBatches N 0
      (TrainState.mk 0 0 evs) (by simpa using hevs)
  · intro hnb hN
    obtain ⟨n, rfl⟩ := Nat.exists_eq_add_of_le hN
    have hdiv : (maxSteps + 1).toNat ≤ numBatches / g := by
      rw [Nat.le_div_iff_mul_le hg]
      rw [Nat.mul_comm] at hnb
      exact hnb
    have hreach := runBatches_reach fp16 g maxSteps (loss 0) hg hms numBatches 0
      (TrainState.mk 0 0 evs) (by simp; omega) (by simpa using hdiv)
    rw [Nat.add_comm 1 n]
    simp only [runEpochs, hreach.1, if_true]
    exact hreach.2

theorem max_steps_bound_witness :
    (((runEpochs false 1 1 "out" (fun _ _ => 0) 2 1 0
        (TrainState.mk 0 0 [])).globalStep : ℤ) ≤ 1 + 1)
    ∧ (runEpochs false 1 1 "out" (fun _ _ => 0) 2 1 0
        (TrainState.mk 0 0 [])).events.countP TrainEvent.isOptStep
        = (runEpochs false 1 1 "out" (fun _ _ => 0) 2 1 0
            (TrainState.mk 0 0 [])).globalStep
    ∧ (1 * ((1 : ℤ) + 1).toNat ≤ 2 → 1 ≤ 1 →
        (((runEpochs false 1 1 "out" (fun _ _ => 0) 2 1 0
            (TrainState.mk 0 0 [])).globalStep : ℤ) = 1 + 1)) :=
  max_steps_bound false 1 1 "out" (fun _ _ => 0) 2 1 [] (by decide) (by decide) rfl

/-- Appending a disciplined trace to a disciplined trace keeps the
fp16 backprop discipline. -/
theorem ampAux_append (ys : List TrainEvent) (hy : ampAux false ys = true) :
    ∀ xs b, ampAux b xs = true → ampAux b (xs ++ ys) = true := by
  intro xs
  induction xs with
  | nil =>
      intro b h
      cases b
      · simpa using hy
      · simp [ampAux] at h
  | cons x rest ih =>
      intro b h
      cases b <;> cases x <;>
        simp only [List.cons_append, ampAux] at h ⊢ <;>
        first
          | exact ih false h
          | exact ih true h
          | exact absurd h Bool.false_ne_true

/-- An fp16 batch iteration preserves the AMP backprop discipline. -/
theorem trainBatch_amp (g step : ℕ) (loss : ℚ) (s : TrainState)
    (h : ampDiscipline s.events = true) :
    ampDiscipline (trainBatch true g step loss s).events = true := by
  unfold ampDiscipline at h ⊢
  rw [trainBatch_events, List.append_assoc]
  refine ampAux_append _ ?_ s.events false h
  show ampAux false
    ([TrainEvent.scaledBackward (backLoss g loss), TrainEvent.clipMaster]
      ++ (if (step + 1) % g = 0 then
            [TrainEvent.optimizerStep, TrainEvent.schedulerStep, TrainEvent.zeroGrad]
          else [])) = true
  split <;> rfl

/-- The fp16 inner loop preserves the AMP backprop discipline. -/
theorem runBatches_amp (g : ℕ) (maxSteps : ℤ) (loss : ℕ → ℚ) :
    ∀ n step s, ampDiscipline s.events = true →
      ampDiscipline ((runBatches true g maxSteps loss n step s).1).events = true := by
  intro n
  induction n with
  | zero => intro step s h; simpa [runBatches] using h
  | succ n ih =>
      intro step s h
      by_cases hbr : 0 < maxSteps ∧
          maxSteps < ((trainBatch true g step (loss step) s).globalStep : ℤ)
      · simp only [runBatches, if_pos hbr]
        exact trainBatch_amp g step (loss step) s h
      · simp only [runBatches, if_neg hbr]
        exact ih (step + 1) (trainBatch true g step (loss step) s)
          (trainBatch_amp g step (loss step) s h)

/-- Checkpoint saves preserve the AMP backprop discipline. -/
theorem saveMaybe_amp (outputDir : String) (epochIndex : ℕ) (s : TrainState)
    (h : ampDiscipline s.events = true) :
    ampDiscipline (saveMaybe outputDir epochIndex s).events = true := by
  unfold ampDiscipline at h ⊢
  unfold saveMaybe
  split
  · exact ampAux_append (checkpointEvents outputDir epochIndex) rfl s.events false h
  · exact h

/-- The fp16 epoch loop preserves the AMP backprop discipline. -/
theorem runEpochs_amp (g : ℕ) (maxSteps : ℤ) (outputDir : String)
    (loss : ℕ → ℕ → ℚ) (numBatches : ℕ) :
    ∀ N epochIndex s, ampDiscipline s.events = true →
      ampDiscipline
        ((runEpochs true g maxSteps outputDir loss numBatches N epochIndex s).events) = true := by
  intro N
  induction N with
  | zero => intro e s h; simpa [runEpochs] using h
  | succ n ih =>
      intro e s h
      cases hbool : (runBatches true g maxSteps (loss e) numBatches 0 s).2 with
      | true =>
          simp only [runEpochs, hbool, if_true]
          exact runBatches_amp g maxSteps (loss e) numBatches 0 s h
      | false =>
          simp only [runEpochs, hbool, Bool.false_eq_true, if_false]
          exact ih (e + 1) _
            (saveMaybe_amp outputDir e _ (runBatches_amp g maxSteps (loss e) numBatches 0 s h))

/-- The inner loop only appends to the event trace. -/
theorem runBatches_events_prefix (fp16 : Bool) (g : ℕ) (maxSteps : ℤ) (loss : ℕ → ℚ) :
    ∀ n step s, ∃ tl, ((runBatches fp16 g maxSteps loss n step s).1).events = s.events ++ tl := by
  intro n
  induction n with
  | zero => intro step s; exact ⟨[], by simp [runBatches]⟩
  | succ n ih =>
      intro step s
      by_cases hbr : 0 < maxSteps ∧
          maxSteps < ((trainBatch fp16 g step (loss step) s).globalStep : ℤ)
      · simp only [runBatches, if_pos hbr]
        refine ⟨(if fp16 then
              [TrainEvent.scaledBackward (backLoss g (loss step)), TrainEvent.clipMaster]
            else [TrainEvent.backward (backLoss g (loss step)), TrainEvent.clipModel])
          ++ (if (step + 1) % g = 0 then
                [TrainEvent.optimizerStep, TrainEvent.schedulerStep, TrainEvent.zeroGrad]
              else []), ?_⟩
        rw [trainBatch_events, List.append_assoc]
      · simp only [runBatches, if_neg hbr]
        obtain ⟨tl, htl⟩ := ih (step + 1) (trainBatch fp16 g step (loss step) s)
        refine ⟨((if fp16 then
              [TrainEvent.scaledBackward (backLoss g (loss step)), TrainEvent.clipMaster]
            else [TrainEvent.backward (backLoss g (loss step)), TrainEvent.clipModel])
          ++ (if (step + 1) % g = 0 then
                [TrainEvent.optimizerStep, TrainEvent.schedulerStep, TrainEvent.zeroGrad]
              else [])) ++ tl, ?_⟩
        rw [htl, trainBatch_events]
        simp [List.append_assoc]

/-- The epoch loop only appends to the event trace. -/
theorem runEpochs_events_prefix (fp16 : Bool) (g : ℕ) (maxSteps : ℤ) (outputDir : String)
    (loss : ℕ → ℕ → ℚ) (numBatches : ℕ) :
    ∀ N epochIndex s, ∃ tl,
      (runEpochs fp16 g maxSteps outputDir loss numBatches N epochIndex s).events
        = s.events ++ tl := by
  intro N
  induction N with
  | zero => intro e s; exact ⟨[], by simp [runEpochs]⟩
  | succ n ih =>
      intro e s
      obtain ⟨tb, htb⟩ := runBatches_events_prefix fp16 g maxSteps (loss e) numBatches 0 s
      cases hbool : (runBatches fp16 g maxSteps (loss e) numBatches 0 s).2 with
      | true =>
          simp only [runEpochs, hbool, if_true]
          exact ⟨tb, htb⟩
      | false =>
          simp only [runEpochs, hbool, Bool.false_eq_true, if_false]
          obtain ⟨te, hte⟩ := ih (e + 1)
            (saveMaybe outputDir e (runBatches fp16 g maxSteps (loss e) numBatches 0 s).1)
          have hsm : ∃ ts, (saveMaybe outputDir e
              (runBatches fp16 g maxSteps (loss e) numBatches 0 s).1).events
              = (runBatches fp16 g maxSteps (loss e) numBatches 0 s).1.events ++ ts := by
            unfold saveMaybe
            split
            · exact ⟨_, rfl⟩
            · exact ⟨[], (List.append_nil _).symm⟩
          obtain ⟨ts, hts⟩ := hsm
          refine ⟨tb ++ ts ++ te, ?_⟩
          rw [hte, hts, htb]
          simp [List.append_assoc]

/-- C6: with `fp16` requested, `train` raises the apex `ImportError` before
any training step when apex is unavailable; when apex is available the run is
initialized through `amp.initialize` at the requested `fp16_opt_level` and
every backward pass is an `amp.scale_loss` backward immediately followed by
gradient clipping on the AMP master parameters (never a plain backward or
model-parameter clipping). -/
theorem fp16_apex_behavior (a : TrainArgs) (apexAvailable : Bool) (loss : ℕ → ℕ → ℚ)
    (numBatches numEpochs : ℕ)
    (hfp : a.fp16 = true)
    (hne : trainNumEpochs a numBatches = Except.ok numEpochs) :
    (apexAvailable = false →
      trainFinalState a apexAvailable loss numBatches =
        Except.error (PyError.apexImportError
          "Please install apex from https://www.github.com/nvidia/apex to use fp16 training.")
      ∧ train a apexAvailable loss numBatches =
          Except.error (PyError.apexImportError
            "Please install apex from https://www.github.com/nvidia/apex to use fp16 training."))
    ∧ (apexAvailable = true →
      (eventsOf (trainFinalState a apexAvailable loss numBatches)).head?
          = some (TrainEvent.ampInit a.fp16OptLevel)
      ∧ ampDiscipline (eventsOf (trainFinalState a apexAvailable loss numBatches)) = true) := by
  constructor
  · intro hna
    subst hna
    have hie : trainInitEvents a false = Except.error (PyError.apexImportError
        "Please install apex from https://www.github.com/nvidia/apex to use fp16 training.") := by
      unfold trainInitEvents
      rw [hfp]
      simp
    have hfs : trainFinalState a false loss numBatches = Except.error (PyError.apexImportError
        "Please install apex from https://www.github.com/nvidia/apex to use fp16 training.") := by
      unfold trainFinalState
      rw [hne, hie]
    refine ⟨hfs, ?_⟩
    unfold train
    rw [hfs]
  · intro hav
    subst hav
    have hie : trainInitEvents a true = Except.ok [TrainEvent.ampInit a.fp16OptLevel] := by
      unfold trainInitEvents
      rw [hfp]
      simp
    have hfs : trainFinalState a true loss numBatches =
        Except.ok (runEpochs a.fp16 a.gradientAccumulationSteps a.maxSteps a.outputDir loss
          numBatches numEpochs 0
          (TrainState.mk 0 0 [TrainEvent.ampInit a.fp16OptLevel])) := by
      unfold trainFinalState
      rw [hne, hie]
    rw [hfs]
    constructor
    · obtain ⟨tl, htl⟩ := runEpochs_events_prefix a.fp16 a.gradientAccumulationSteps a.maxSteps
        a.outputDir loss numBatches numEpochs 0
        (TrainState.mk 0 0 [TrainEvent.ampInit a.fp16OptLevel])
      show (runEpochs a.fp16 a.gradientAccumulationSteps a.maxSteps a.outputDir loss
          numBatches numEpochs 0
          (TrainState.mk 0 0 [TrainEvent.ampInit a.fp16OptLevel])).events.head?
        = some (TrainEvent.ampInit a.fp16OptLevel)
      rw [htl]
      rfl
    · show ampDiscipline (runEpochs a.fp16 a.gradientAccumulationSteps a.maxSteps a.outputDir loss
        numBatches numEpochs 0 (TrainState.mk 0 0 [TrainEvent.ampInit a.fp16OptLevel])).events = true
      rw [hfp]
      exact runEpochs_amp a.gradientAccumulationSteps a.maxSteps a.outputDir loss numBatches
        numEpochs 0 (TrainState.mk 0 0 [TrainEvent.ampInit a.fp16OptLevel]) rfl

theorem fp16_apex_behavior_witness :
    (true = false →
      trainFinalState (TrainArgs.mk 1 (-1) 1 true "O1" "out") true (fun _ _ => 1) 1 =
        Except.error (PyError.apexImportError
          "Please install apex from https://www.github.com/nvidia/apex to use fp16 training.")
      ∧ train (TrainArgs.mk 1 (-1) 1 true "O1" "out") true (fun _ _ => 1) 1 =
          Except.error (PyError.apexImportError
            "Please install apex from https://www.github.com/nvidia/apex to use fp16 training."))
    ∧ (true = true →
      (eventsOf (trainFinalState (TrainArgs.mk 1 (-1) 1 true "O1" "out") true
          (fun _ _ => 1) 1)).head?
          = some (TrainEvent.ampInit (TrainArgs.mk 1 (-1) 1 true "O1" "out").fp16OptLevel)
      ∧ ampDiscipline (eventsOf (trainFinalState (TrainArgs.mk 1 (-1) 1 true "O1" "out") true
          (fun _ _ => 1) 1)) = true) :=
  fp16_apex_behavior (TrainArgs.mk 1 (-1) 1 true "O1" "out") true (fun _ _ => 1) 1 1 rfl rfl

end PRobr

